import Mathlib

set_option maxHeartbeats 1000000

/-!
Shallow embedding of the RSVP tracking repository.

Core (src/services/RsvpService.ts): `RsvpService` keeps a JavaScript
`Map<string, RsvpStatus>` from player id to status, mutated only through the
validated `addOrUpdateRsvp` upsert, with derived aggregation (`getCounts`,
`getConfirmedAttendees`, `getPlayerStatus`) and an injected logger.

The JS `Map` is modelled as an insertion-ordered association list with unique
keys: `set` on a present key rewrites the entry in place, otherwise appends.
Statuses are runtime strings (the TS union can be defeated at runtime, which
the service guards against with `validStatuses`). Each operation returns the
object state after the call together with the list of emitted log events; the
structured extra parameters passed to the logger are not modelled, only the
severity and the message string.
-/

/-- Severity levels of the injected `ILogger` capability. -/
inductive LogLevel where
  | log
  | warn
  | error
  deriving DecidableEq, Repr

/-- One emitted log event: severity and message string. -/
structure LogEvent where
  level : LogLevel
  message : String
  deriving DecidableEq, Repr

/-- JS `Map.prototype.get`: the value stored under `k`, if present. -/
def mapGet {α : Type} : List (String × α) → String → Option α
  | [], _ => none
  | p :: ps, k => if p.1 == k then some p.2 else mapGet ps k

/-- JS `Map.prototype.set`: rewrite the entry in place when the key is
present (keeping its insertion position), otherwise append a fresh entry. -/
def mapSet {α : Type} : List (String × α) → String → α → List (String × α)
  | [], k, v => [(k, v)]
  | p :: ps, k, v => if p.1 == k then (k, v) :: ps else p :: mapSet ps k v

/-- The closed status enumeration of rsvp.types.ts, as the runtime
`validStatuses` list checked in `addOrUpdateRsvp`. -/
def validStatuses : List String := ["Yes", "No", "Maybe"]

/-- Input structure for initial RSVP data (rsvp.types.ts `RsvpEntry`); the
status field is an arbitrary runtime value at this boundary. -/
structure RsvpEntry where
  playerId : String
  status : String
  deriving DecidableEq, Repr

/-- Result structure of `getCounts` (rsvp.types.ts `RsvpCounts`). -/
structure RsvpCounts where
  total : Nat
  confirmed : Nat
  declined : Nat
  maybe : Nat
  deriving DecidableEq, Repr

/-- The service state: the private `rsvps` map (player id to status). -/
structure RsvpService where
  rsvps : List (String × String)
  deriving DecidableEq, Repr

/-- `RsvpService.addOrUpdateRsvp(playerId, status, isInitialization)`:
validates the player id (JS falsy check, empty string) and the status
(membership in `validStatuses`), rejecting with an error log and no state
change; otherwise writes through `Map.set` and emits the added/updated
informational log unless called during construction. -/
def addOrUpdateRsvp (s : RsvpService) (playerId status : String) (isInit : Bool) :
    RsvpService × List LogEvent :=
  if playerId == "" then
    (s, [⟨.error, "addOrUpdateRsvp called with invalid playerId."⟩])
  else if !(validStatuses.contains status) then
    (s, [⟨.error, "addOrUpdateRsvp called with invalid status \"" ++ status ++
      "\" for player " ++ playerId ++ "."⟩])
  else
    let previousStatus := mapGet s.rsvps playerId
    let s' : RsvpService := ⟨mapSet s.rsvps playerId status⟩
    let logs : List LogEvent :=
      if isInit then []
      else
        match previousStatus with
        | some prev =>
          if prev == "" then
            [⟨.log, "Added new RSVP for player " ++ playerId ++ ": " ++ status ++ "."⟩]
          else
            [⟨.log, "Updated RSVP for player " ++ playerId ++ " from " ++ prev ++
              " to " ++ status ++ "."⟩]
        | none =>
          [⟨.log, "Added new RSVP for player " ++ playerId ++ ": " ++ status ++ "."⟩]
    (s', logs)

/-- The state of a freshly constructed service before bulk load: empty map. -/
def emptyService : RsvpService := ⟨[]⟩

/-- Per-candidate body of the constructor loop: skip the entry with a
warning when the playerId or the status is JS-falsy (empty), otherwise route
it through `addOrUpdateRsvp` with the init flag set. -/
def constructStep (acc : RsvpService × List LogEvent) (entry : RsvpEntry) :
    RsvpService × List LogEvent :=
  if entry.playerId == "" || entry.status == "" then
    (acc.1, acc.2 ++ [⟨.warn, "Skipping invalid initial entry:"⟩])
  else
    let r := addOrUpdateRsvp acc.1 entry.playerId entry.status true
    (r.1, acc.2 ++ r.2)

/-- The `RsvpService` constructor: logs the initial message, then runs
`constructStep` over the candidate entries in sequence order. -/
def constructService (initialEntries : List RsvpEntry) : RsvpService × List LogEvent :=
  let headLog : List LogEvent :=
    if initialEntries.length > 0 then
      [⟨.log, "Initializing RsvpService with " ++ toString initialEntries.length ++ " entries."⟩]
    else
      [⟨.log, "Initializing RsvpService with empty state."⟩]
  initialEntries.foldl constructStep (emptyService, headLog)

/-- State reached by a sequence of runtime `addOrUpdateRsvp` calls. -/
def runUpserts (s : RsvpService) (ops : List (String × String)) : RsvpService :=
  ops.foldl (fun st op => (addOrUpdateRsvp st op.1 op.2 false).1) s

/-- Loop body of `getConfirmedAttendees`: push the player id when the
status is `Yes`. -/
def confirmedStep (ids : List String) (p : String × String) : List String :=
  if p.2 == "Yes" then ids ++ [p.1] else ids

/-- `RsvpService.getConfirmedAttendees()`: iterate the map entries collecting
ids mapped to `Yes`, log the count, return the ids. First component is the
object state after the call. -/
def getConfirmedAttendees (s : RsvpService) : RsvpService × List String × List LogEvent :=
  let confirmedIds := s.rsvps.foldl confirmedStep []
  (s, confirmedIds,
    [⟨.log, "Retrieved " ++ toString confirmedIds.length ++ " confirmed attendees."⟩])

/-- Loop body of `getCounts`: increment `total` for every entry, then the
bucket selected by the status switch (no bucket for an unexpected value). -/
def countsStep (c : RsvpCounts) (p : String × String) : RsvpCounts :=
  let c1 : RsvpCounts := { c with total := c.total + 1 }
  if p.2 == "Yes" then { c1 with confirmed := c1.confirmed + 1 }
  else if p.2 == "No" then { c1 with declined := c1.declined + 1 }
  else if p.2 == "Maybe" then { c1 with maybe := c1.maybe + 1 }
  else c1

/-- `RsvpService.getCounts()`: fold the counting switch over the stored
statuses starting from all-zero counts, log, return the counts. -/
def getCounts (s : RsvpService) : RsvpService × RsvpCounts × List LogEvent :=
  let counts := s.rsvps.foldl countsStep ⟨0, 0, 0, 0⟩
  (s, counts, [⟨.log, "Calculated RSVP counts:"⟩])

/-- `RsvpService.getPlayerStatus(playerId)`: a bare `Map.get`, no logging,
no mutation. -/
def getPlayerStatus (s : RsvpService) (playerId : String) :
    RsvpService × Option String × List LogEvent :=
  (s, mapGet s.rsvps playerId, [])

/-- Specification-side characterization for the lookup claim: the status
written by the most recent successful upsert for `pid` in the operation
sequence, if any (later operations win). -/
def specLastSuccessfulUpsert : List (String × String) → String → Option String
  | [], _ => none
  | op :: ops, pid =>
    match specLastSuccessfulUpsert ops pid with
    | some v => some v
    | none =>
      if op.1 == pid && op.1 != "" && validStatuses.contains op.2 then some op.2 else none

/-- Registry well-formedness: non-empty keys, statuses in the closed
enumeration, at most one entry per key. -/
def WFService (s : RsvpService) : Prop :=
  (∀ p ∈ s.rsvps, p.1 ≠ "" ∧ p.2 ∈ validStatuses) ∧ (s.rsvps.map Prod.fst).Nodup

/-- States reachable through construction and any sequence of upsert calls. -/
inductive Reachable : RsvpService → Prop where
  | construct (entries : List RsvpEntry) : Reachable (constructService entries).1
  | step (s : RsvpService) (pid st : String) (b : Bool) :
      Reachable s → Reachable (addOrUpdateRsvp s pid st b).1

/-!
### Report pipeline (generate_html_report script)

Embedding of the pure core of `generateHtmlReport`: CSV rows become records
whose fields are `Option String` (a column missing from the row is `none`,
matching the `typeof x === "undefined"` checks); file input/output and the
CSV parser are the external boundary and are not modelled. `console.warn`
messages are collected in a list.
-/

/-- A row of players.csv as delivered by the CSV parser. -/
structure Player where
  player_id : Option String
  player_name : Option String
  player_email : Option String
  gender : Option String
  age : Option String
  deriving DecidableEq, Repr

/-- A row of events.csv as delivered by the CSV parser. -/
structure Event where
  event_id : Option String
  event_name : Option String
  event_location : Option String
  event_date : Option String
  deriving DecidableEq, Repr

/-- A row of rsvp.csv as delivered by the CSV parser. -/
structure Rsvp where
  rsvp_id : Option String
  event_id : Option String
  player_id : Option String
  status : Option String
  deriving DecidableEq, Repr

/-- Per-event accumulator of the report join. -/
structure EventAttendance where
  event_id : String
  event_name : String
  attendee_names : List String
  deriving DecidableEq, Repr

/-- JS `x || dflt` over an optional string field: the field when present and
non-empty, the default otherwise. -/
def orDefault (s : Option String) (dflt : String) : String :=
  match s with
  | some v => if v == "" then dflt else v
  | none => dflt

/-- `escapeHtml`: empty for falsy input, otherwise the five chained global
replacements of the source. -/
def escapeHtml (raw : String) : String :=
  if raw == "" then ""
  else
    ((((raw.replace "&" "&amp;").replace "<" "&lt;").replace ">" "&gt;").replace
      "\"" "&quot;").replace "\x27" "&#039;"

/-- Step 1 of the pipeline: `playerMap`, player_id to display name, skipping
rows with a falsy player_id and defaulting a falsy name. -/
def buildPlayerMap (playersData : List Player) : List (String × String) :=
  playersData.foldl
    (fun m player =>
      match player.player_id with
      | some pid =>
        if pid == "" then m else mapSet m pid (orDefault player.player_name "Unknown Player")
      | none => m)
    []

/-- Step 2 of the pipeline: the event attendance map keyed by event_id, with
empty attendee lists; events with an absent event_id are skipped with a
warning. -/
def buildEventAttendanceMap (eventsData : List Event) :
    List (String × EventAttendance) × List String :=
  eventsData.foldl
    (fun acc event =>
      match event.event_id with
      | none => (acc.1, acc.2 ++ ["Warning: Skipping event with missing or invalid event_id:"])
      | some eid =>
        (mapSet acc.1 eid ⟨eid, orDefault event.event_name "Unnamed Event", []⟩, acc.2))
    ([], [])

/-- Placeholder attendee name for a Yes-RSVP whose player_id is unknown. -/
def unknownPlayerPlaceholder (pid : String) : String := "Unknown Player (ID: " ++ pid ++ ")"

/-- Warning text for a Yes-RSVP referencing an unknown player. -/
def unknownPlayerWarning (pid eid : String) : String :=
  "Warning: Found RSVP \x27Yes\x27 for unknown player_id: " ++ pid ++ " at event " ++ eid

/-- Warning text for an RSVP referencing an event absent from events.csv. -/
def unknownEventWarning (eid : String) : String :=
  "Warning: Found RSVP for event_id not present in events file: " ++ eid

/-- Step 3 loop body: for a Yes-RSVP with both ids present, push the resolved
player name (or the placeholder, with a warning) onto the referenced event, or
warn and skip when the event is unknown; RSVPs with a missing id are skipped
with a warning; non-Yes RSVPs are ignored. -/
def processRsvp (playerMap : List (String × String))
    (acc : List (String × EventAttendance) × List String) (rsvp : Rsvp) :
    List (String × EventAttendance) × List String :=
  match rsvp.event_id, rsvp.player_id with
  | some eid, some pid =>
    if rsvp.status == some "Yes" then
      match mapGet acc.1 eid with
      | some ea =>
        match mapGet playerMap pid with
        | some name =>
          if name == "" then
            (mapSet acc.1 eid
              { ea with attendee_names := ea.attendee_names ++ [unknownPlayerPlaceholder pid] },
             acc.2 ++ [unknownPlayerWarning pid eid])
          else
            (mapSet acc.1 eid { ea with attendee_names := ea.attendee_names ++ [name] }, acc.2)
        | none =>
          (mapSet acc.1 eid
            { ea with attendee_names := ea.attendee_names ++ [unknownPlayerPlaceholder pid] },
           acc.2 ++ [unknownPlayerWarning pid eid])
      | none => (acc.1, acc.2 ++ [unknownEventWarning eid])
    else acc
  | _, _ => (acc.1, acc.2 ++ ["Warning: Skipping RSVP entry with missing IDs:"])

/-- Step 3 of the pipeline: fold `processRsvp` over rsvp.csv. -/
def processAllRsvps (playerMap : List (String × String))
    (m0 : List (String × EventAttendance)) (rsvpData : List Rsvp) :
    List (String × EventAttendance) × List String :=
  rsvpData.foldl (processRsvp playerMap) (m0, [])

/-- Value of a hex digit, when the character is one. -/
def hexDigitVal (c : Char) : Option Nat :=
  if c.isDigit then some (c.toNat - 48)
  else if c ≥ 'a' ∧ c ≤ 'f' then some (c.toNat - 87)
  else if c ≥ 'A' ∧ c ≤ 'F' then some (c.toNat - 55)
  else none

/-- Longest leading run of decimal digits, `none` when there is none. -/
def parseDecimal (cs : List Char) : Option Nat :=
  let ds := cs.takeWhile Char.isDigit
  if ds.isEmpty then none
  else some (ds.foldl (fun n c => n * 10 + (c.toNat - 48)) 0)

/-- Longest leading run of hexadecimal digits, `none` when there is none. -/
def parseHex (cs : List Char) : Option Nat :=
  let ds := cs.takeWhile (fun c => (hexDigitVal c).isSome)
  if ds.isEmpty then none
  else some (ds.foldl (fun n c => n * 16 + (hexDigitVal c).getD 0) 0)

/-- Model of JavaScript `parseInt` with no radix argument: skip leading
whitespace, optional sign, optional 0x/0X hex prefix, then the longest
leading digit run; NaN (`none`) when no digit is consumed. -/
def parseInt (s : String) : Option Int :=
  let cs := s.data.dropWhile Char.isWhitespace
  let signed : Int × List Char :=
    match cs with
    | c :: rest => if c = '-' then (-1, rest) else if c = '+' then (1, rest) else (1, c :: rest)
    | [] => (1, [])
  let mag : Option Nat :=
    match signed.2 with
    | c0 :: c1 :: rest =>
      if c0 = '0' ∧ (c1 = 'x' ∨ c1 = 'X') then parseHex rest
      else parseDecimal signed.2
    | _ => parseDecimal signed.2
  mag.map (fun n => signed.1 * (n : Int))

/-- The comparator key of the report sort: the parsed event id (only applied
to events that survived the `!isNaN(parseInt(...))` filter). -/
def sortKey (ea : EventAttendance) : Int := (parseInt ea.event_id).getD 0

/-- Stable insertion into a list sorted ascending by `sortKey`. -/
def insertSortedByKey (x : EventAttendance) : List EventAttendance → List EventAttendance
  | [] => [x]
  | y :: ys => if sortKey y < sortKey x then y :: insertSortedByKey x ys else x :: y :: ys

/-- Stable sort ascending by `sortKey`, modelling the stable JS
`sort((a, b) => parseInt(a.event_id) - parseInt(b.event_id))`. -/
def sortByKey (l : List EventAttendance) : List EventAttendance :=
  l.foldr insertSortedByKey []

/-- `reportData`: the attendance map values with a numerically parsable
event_id, sorted ascending by the parsed id. -/
def reportData (vals : List EventAttendance) : List EventAttendance :=
  sortByKey (vals.filter (fun ea => (parseInt ea.event_id).isSome))

/-- One `<tr>` of the report body, carrying the serial number, the escaped
event name, the comma-joined escaped attendee names (or the None marker),
and the attendee count. -/
def rowFor (idx : Nat) (event : EventAttendance) : String :=
  let attendeeListHtml :=
    if event.attendee_names.length > 0 then
      String.intercalate ", " (event.attendee_names.map escapeHtml)
    else "<em>None</em>"
  "\n            <tr>\n                <td>" ++ toString (idx + 1) ++
    "</td>\n                <td>" ++ escapeHtml event.event_name ++
    "</td>\n                <td>" ++ attendeeListHtml ++
    "</td>\n                <td>" ++ toString event.attendee_names.length ++
    "</td>\n            </tr>"

/-- The document up to `<tbody>`, with the grand total interpolated into the
last column header. -/
def htmlHeader (totalCount : Nat) : String :=
  "<!DOCTYPE html>\n<html lang=\"en\">\n<head>\n    <meta charset=\"UTF-8\">\n" ++
  "    <meta name=\"viewport\" content=\"width=device-width, initial-scale=1.0\">\n" ++
  "    <title>Event Attendance Report</title>\n    <style>\n" ++
  "        body \x7b font-family: sans-serif; line-height: 1.6; padding: 20px; \x7d\n" ++
  "        table \x7b border-collapse: collapse; width: 100%; margin-top: 20px; \x7d\n" ++
  "        th, td \x7b border: 1px solid #ddd; padding: 8px; text-align: left; vertical-align: top; \x7d\n" ++
  "        th \x7b background-color: #f2f2f2; \x7d\n" ++
  "        tr:nth-child(even) \x7b background-color: #f9f9f9; \x7d\n" ++
  "        td ul \x7b margin: 0; padding-left: 20px; \x7d /* Style for unordered list if used */\n" ++
  "    </style>\n</head>\n<body>\n    <h1>Event Attendance Report</h1>\n    <table>\n" ++
  "        <thead>\n            <tr style = \"text-align:center\">\n" ++
  "                <th style = \"text-align:center\" >Serial Number</th>\n" ++
  "                <th style = \"text-align:center\" >Event Name</th>\n" ++
  "                <th style = \"text-align:center\" >Confirmed Attendees</th>\n" ++
  "                <th style = \"text-align:center\" >Number of Attendees <br>(" ++
  toString totalCount ++ " Total)</th>\n            </tr>\n        </thead>\n        <tbody>"

/-- The document tail after the body rows. -/
def htmlFooter : String := "\n        </tbody>\n    </table>\n</body>\n</html>"

/-- The `reportData` of the whole pipeline: attendance values after the
three build steps, filtered to parsable event ids and sorted. -/
def reportDataOf (playersData : List Player) (eventsData : List Event)
    (rsvpData : List Rsvp) : List EventAttendance :=
  reportData ((processAllRsvps (buildPlayerMap playersData)
    (buildEventAttendanceMap eventsData).1 rsvpData).1.map Prod.snd)

/-- The pure core of `generateHtmlReport`: from the three loaded record
sets, the rendered document and the warnings emitted along the way. -/
def generateHtmlReportString (playersData : List Player) (eventsData : List Event)
    (rsvpData : List Rsvp) : String × List String :=
  let rd := reportDataOf playersData eventsData rsvpData
  let total := rd.foldl (fun sum ea => sum + ea.attendee_names.length) 0
  (htmlHeader total ++ String.join ((rd.enum).map (fun p => rowFor p.1 p.2)) ++ htmlFooter,
   (buildEventAttendanceMap eventsData).2 ++
     (processAllRsvps (buildPlayerMap playersData)
       (buildEventAttendanceMap eventsData).1 rsvpData).2)

/-- Concrete event row for the unknown-event counterexample. -/
def exEventA : Event := ⟨some "1", some "Event A", none, none⟩

/-- Concrete Yes-RSVP referencing event id 2, absent from the events data. -/
def exRsvpUnknownEvent : Rsvp := ⟨some "r1", some "2", some "p9", some "Yes"⟩

/-! ### Map lemmas -/

theorem mapGet_mapSet {α : Type} (m : List (String × α)) (k : String) (v : α) (q : String) :
    mapGet (mapSet m k v) q = if k = q then some v else mapGet m q := by
  induction m with
  | nil => by_cases h : k = q <;> simp [mapGet, mapSet, h]
  | cons p ps ih =>
    by_cases hp : p.1 = k
    · by_cases hq : k = q
      · simp [mapGet, mapSet, hp, hq]
      · have hpq : ¬ (p.1 = q) := by rw [hp]; exact hq
        simp [mapGet, mapSet, hp, hq, hpq]
    · by_cases hq : p.1 = q
      · have hkq : ¬ (k = q) := fun h => hp (by rw [h, hq])
        have hqk : ¬ (q = k) := fun h => hkq h.symm
        simp [mapGet, mapSet, hp, hq, hkq, hqk]
      · simp [mapGet, mapSet, hp, hq, ih]

theorem mem_mapSet {α : Type} (m : List (String × α)) (k : String) (v : α)
    (p : String × α) (hp : p ∈ mapSet m k v) : p = (k, v) ∨ p ∈ m := by
  induction m with
  | nil => simpa [mapSet] using hp
  | cons e es ih =>
    by_cases he : e.1 = k
    · have hs : mapSet (e :: es) k v = (k, v) :: es := by simp [mapSet, he]
      rw [hs, List.mem_cons] at hp
      rcases hp with h | h
      · exact Or.inl h
      · exact Or.inr (List.mem_cons_of_mem _ h)
    · have hs : mapSet (e :: es) k v = e :: mapSet es k v := by simp [mapSet, he]
      rw [hs, List.mem_cons] at hp
      rcases hp with h | h
      · exact Or.inr (by rw [h]; exact List.mem_cons_self _ _)
      · rcases ih h with h2 | h2
        · exact Or.inl h2
        · exact Or.inr (List.mem_cons_of_mem _ h2)

theorem mem_map_fst_mapSet {α : Type} (m : List (String × α)) (k : String) (v : α)
    (q : String) : q ∈ (mapSet m k v).map Prod.fst ↔ q = k ∨ q ∈ m.map Prod.fst := by
  induction m with
  | nil => simp [mapSet]
  | cons e es ih =>
    by_cases he : e.1 = k
    · have hs : mapSet (e :: es) k v = (k, v) :: es := by simp [mapSet, he]
      rw [hs, List.map_cons, List.map_cons]
      simp only [List.mem_cons]
      constructor
      · rintro (h | h)
        · exact Or.inl h
        · exact Or.inr (Or.inr h)
      · rintro (h | h | h)
        · exact Or.inl h
        · exact Or.inl (by rw [h, he])
        · exact Or.inr h
    · have hs : mapSet (e :: es) k v = e :: mapSet es k v := by simp [mapSet, he]
      rw [hs, List.map_cons, List.map_cons]
      simp only [List.mem_cons, ih]
      tauto

theorem nodup_map_fst_mapSet {α : Type} (m : List (String × α)) (k : String) (v : α)
    (h : (m.map Prod.fst).Nodup) : ((mapSet m k v).map Prod.fst).Nodup := by
  induction m with
  | nil => simp [mapSet]
  | cons e es ih =>
    rw [List.map_cons, List.nodup_cons] at h
    by_cases he : e.1 = k
    · have hs : mapSet (e :: es) k v = (k, v) :: es := by simp [mapSet, he]
      rw [hs, List.map_cons, List.nodup_cons]
      exact ⟨by rw [← he]; exact h.1, h.2⟩
    · have hs : mapSet (e :: es) k v = e :: mapSet es k v := by simp [mapSet, he]
      rw [hs, List.map_cons, List.nodup_cons]
      refine ⟨?_, ih h.2⟩
      intro hmem
      rcases (mem_map_fst_mapSet es k v e.1).mp hmem with h2 | h2
      · exact he h2
      · exact h.1 h2

/-! ### Well-formedness of reachable states -/

theorem wf_addOrUpdateRsvp (s : RsvpService) (pid st : String) (b : Bool)
    (h : WFService s) : WFService (addOrUpdateRsvp s pid st b).1 := by
  by_cases h1 : pid = ""
  · simpa [addOrUpdateRsvp, h1] using h
  · by_cases h2 : st ∈ validStatuses
    · have hstate : (addOrUpdateRsvp s pid st b).1 = ⟨mapSet s.rsvps pid st⟩ := by
        simp [addOrUpdateRsvp, h1, h2]
      rw [hstate]
      constructor
      · intro p hp
        rcases mem_mapSet s.rsvps pid st p hp with rfl | hmem
        · exact ⟨h1, h2⟩
        · exact h.1 p hmem
      · exact nodup_map_fst_mapSet s.rsvps pid st h.2
    · simpa [addOrUpdateRsvp, h1, h2] using h

theorem wf_constructFold (entries : List RsvpEntry) (acc : RsvpService × List LogEvent)
    (h : WFService acc.1) : WFService (entries.foldl constructStep acc).1 := by
  induction entries generalizing acc with
  | nil => exact h
  | cons e es ih =>
    rw [List.foldl_cons]
    refine ih _ ?_
    by_cases hcase : (e.playerId == "" || e.status == "") = true
    · simpa [constructStep, hcase] using h
    · simpa [constructStep, hcase] using wf_addOrUpdateRsvp acc.1 e.playerId e.status true h

theorem wf_emptyService : WFService emptyService := by
  constructor <;> simp [emptyService]

theorem reachable_wf (s : RsvpService) (h : Reachable s) : WFService s := by
  induction h with
  | construct entries =>
    exact wf_constructFold entries _ wf_emptyService
  | step s pid st b _ ih => exact wf_addOrUpdateRsvp _ _ _ _ ih

/-! ### Counting lemmas -/

theorem countsStep_foldl (l : List (String × String)) (c : RsvpCounts) :
    l.foldl countsStep c =
      ⟨c.total + l.length,
       c.confirmed + l.countP (fun p => p.2 == "Yes"),
       c.declined + l.countP (fun p => p.2 == "No"),
       c.maybe + l.countP (fun p => p.2 == "Maybe")⟩ := by
  induction l generalizing c with
  | nil => simp
  | cons p ps ih =>
    rw [List.foldl_cons, ih]
    by_cases h1 : p.2 = "Yes"
    · simp [countsStep, h1, List.countP_cons, RsvpCounts.mk.injEq]
      omega
    · by_cases h2 : p.2 = "No"
      · simp [countsStep, h1, h2, List.countP_cons, RsvpCounts.mk.injEq]
        omega
      · by_cases h3 : p.2 = "Maybe"
        · simp [countsStep, h1, h2, h3, List.countP_cons, RsvpCounts.mk.injEq]
          omega
        · simp [countsStep, h1, h2, h3, List.countP_cons, RsvpCounts.mk.injEq]
          omega

theorem length_eq_countP_statuses (l : List (String × String))
    (h : ∀ p ∈ l, p.2 ∈ validStatuses) :
    l.length = l.countP (fun p => p.2 == "Yes") + l.countP (fun p => p.2 == "No") +
      l.countP (fun p => p.2 == "Maybe") := by
  induction l with
  | nil => simp
  | cons p ps ih =>
    have hp := h p (List.mem_cons_self _ _)
    have hps : ∀ q ∈ ps, q.2 ∈ validStatuses := fun q hq => h q (List.mem_cons_of_mem _ hq)
    rw [List.length_cons, List.countP_cons, List.countP_cons, List.countP_cons, ih hps]
    simp only [validStatuses, List.mem_cons, List.not_mem_nil, or_false] at hp
    rcases hp with h1 | h1 | h1 <;> simp [h1] <;> omega

/-- C1: for every reachable registry state, `getCounts` returns counts with
`confirmed`/`declined`/`maybe` equal to the number of stored entries with
status Yes/No/Maybe, `total` equal to the number of stored entries, and
`total = confirmed + declined + maybe`. -/
theorem getCounts_correct (s : RsvpService) (h : Reachable s) :
    ((getCounts s).2.1).confirmed = s.rsvps.countP (fun p => p.2 == "Yes") ∧
    ((getCounts s).2.1).declined = s.rsvps.countP (fun p => p.2 == "No") ∧
    ((getCounts s).2.1).maybe = s.rsvps.countP (fun p => p.2 == "Maybe") ∧
    ((getCounts s).2.1).total = s.rsvps.length ∧
    ((getCounts s).2.1).total =
      ((getCounts s).2.1).confirmed + ((getCounts s).2.1).declined +
        ((getCounts s).2.1).maybe := by
  have hw := reachable_wf s h
  have hc : (getCounts s).2.1 =
      ⟨s.rsvps.length, s.rsvps.countP (fun p => p.2 == "Yes"),
       s.rsvps.countP (fun p => p.2 == "No"),
       s.rsvps.countP (fun p => p.2 == "Maybe")⟩ := by
    simp [getCounts, countsStep_foldl]
  rw [hc]
  refine ⟨rfl, rfl, rfl, rfl, ?_⟩
  exact length_eq_countP_statuses s.rsvps (fun p hp => (hw.1 p hp).2)

/-- Witness for C1 at the concrete reachable state built from one entry. -/
theorem getCounts_correct_witness :
    ((getCounts (constructService [⟨"p1", "Yes"⟩]).1).2.1).confirmed =
        (constructService [⟨"p1", "Yes"⟩]).1.rsvps.countP (fun p => p.2 == "Yes") ∧
    ((getCounts (constructService [⟨"p1", "Yes"⟩]).1).2.1).declined =
        (constructService [⟨"p1", "Yes"⟩]).1.rsvps.countP (fun p => p.2 == "No") ∧
    ((getCounts (constructService [⟨"p1", "Yes"⟩]).1).2.1).maybe =
        (constructService [⟨"p1", "Yes"⟩]).1.rsvps.countP (fun p => p.2 == "Maybe") ∧
    ((getCounts (constructService [⟨"p1", "Yes"⟩]).1).2.1).total =
        (constructService [⟨"p1", "Yes"⟩]).1.rsvps.length ∧
    ((getCounts (constructService [⟨"p1", "Yes"⟩]).1).2.1).total =
      ((getCounts (constructService [⟨"p1", "Yes"⟩]).1).2.1).confirmed +
        ((getCounts (constructService [⟨"p1", "Yes"⟩]).1).2.1).declined +
        ((getCounts (constructService [⟨"p1", "Yes"⟩]).1).2.1).maybe :=
  getCounts_correct _ (Reachable.construct [⟨"p1", "Yes"⟩])

/-- C2: every state reachable through construction and any sequence of upsert
calls stores only entries with a non-empty player id and a status in the
closed enumeration, with at most one entry per identifier. -/
theorem reachable_entries_valid (s : RsvpService) (h : Reachable s) :
    (∀ p ∈ s.rsvps, p.1 ≠ "" ∧ (p.2 = "Yes" ∨ p.2 = "No" ∨ p.2 = "Maybe")) ∧
    (s.rsvps.map Prod.fst).Nodup := by
  have hw := reachable_wf s h
  refine ⟨fun p hp => ⟨(hw.1 p hp).1, ?_⟩, hw.2⟩
  simpa [validStatuses] using (hw.1 p hp).2

/-- Witness for C2 at a concrete state reached by construction plus a
runtime upsert. -/
theorem reachable_entries_valid_witness :
    (∀ p ∈ ((addOrUpdateRsvp (constructService [⟨"p1", "Yes"⟩]).1 "p2" "No" false).1).rsvps,
      p.1 ≠ "" ∧ (p.2 = "Yes" ∨ p.2 = "No" ∨ p.2 = "Maybe")) ∧
    (((addOrUpdateRsvp (constructService [⟨"p1", "Yes"⟩]).1 "p2" "No" false).1).rsvps.map
      Prod.fst).Nodup :=
  reachable_entries_valid _
    (Reachable.step _ "p2" "No" false (Reachable.construct [⟨"p1", "Yes"⟩]))

/-- C4: an upsert that fails validation (empty playerId, or status outside
the closed enumeration) leaves the map unchanged, creates no lookupable
entry, and emits exactly one error-severity log; the call returns normally
with the registry state intact. -/
theorem invalid_upsert_rejected (s : RsvpService) (pid st : String) (b : Bool)
    (h : pid = "" ∨ st ∉ validStatuses) :
    (addOrUpdateRsvp s pid st b).1 = s ∧
    ((addOrUpdateRsvp s pid st b).2.map LogEvent.level = [LogLevel.error]) ∧
    (∀ q, (getPlayerStatus (addOrUpdateRsvp s pid st b).1 q).2.1 =
      (getPlayerStatus s q).2.1) := by
  by_cases h1 : pid = ""
  · refine ⟨?_, ?_, ?_⟩ <;> simp [addOrUpdateRsvp, h1, getPlayerStatus]
  · have h2 : st ∉ validStatuses := by
      rcases h with h | h
      · exact absurd h h1
      · exact h
    refine ⟨?_, ?_, ?_⟩ <;> simp [addOrUpdateRsvp, h1, h2, getPlayerStatus]

/-- Witness for C4: upserting a fresh player with invalid status "Accepted"
is rejected without effect. -/
theorem invalid_upsert_rejected_witness :
    (addOrUpdateRsvp emptyService "p7" "Accepted" false).1 = emptyService ∧
    ((addOrUpdateRsvp emptyService "p7" "Accepted" false).2.map LogEvent.level =
      [LogLevel.error]) ∧
    (∀ q, (getPlayerStatus (addOrUpdateRsvp emptyService "p7" "Accepted" false).1 q).2.1 =
      (getPlayerStatus emptyService q).2.1) :=
  invalid_upsert_rejected emptyService "p7" "Accepted" false (Or.inr (by decide))

/-- C10: the read operations return the player-to-status mapping unchanged:
the state component of each result is the state the call started from. -/
theorem reads_do_not_mutate (s : RsvpService) (pid : String) :
    (getConfirmedAttendees s).1 = s ∧ (getCounts s).1 = s ∧ (getPlayerStatus s pid).1 = s :=
  ⟨rfl, rfl, rfl⟩

/-! ### Upsert state lemmas -/

theorem addOrUpdateRsvp_fst_flag (s : RsvpService) (pid st : String) (b b' : Bool) :
    (addOrUpdateRsvp s pid st b).1 = (addOrUpdateRsvp s pid st b').1 := by
  by_cases h1 : pid = "" <;> by_cases h2 : st ∈ validStatuses <;>
    simp [addOrUpdateRsvp, h1, h2]

theorem addOrUpdateRsvp_fst_success (s : RsvpService) (pid st : String) (b : Bool)
    (h1 : pid ≠ "") (h2 : st ∈ validStatuses) :
    (addOrUpdateRsvp s pid st b).1 = ⟨mapSet s.rsvps pid st⟩ := by
  simp [addOrUpdateRsvp, h1, h2]

theorem addOrUpdateRsvp_fst_fail (s : RsvpService) (pid st : String) (b : Bool)
    (h : pid = "" ∨ st ∉ validStatuses) : (addOrUpdateRsvp s pid st b).1 = s := by
  by_cases h1 : pid = ""
  · simp [addOrUpdateRsvp, h1]
  · have h2 : st ∉ validStatuses := h.resolve_left h1
    simp [addOrUpdateRsvp, h1, h2]

theorem mapGet_addOrUpdateRsvp (s : RsvpService) (pid st : String) (b : Bool) (q : String) :
    mapGet ((addOrUpdateRsvp s pid st b).1).rsvps q =
      if pid ≠ "" ∧ st ∈ validStatuses ∧ pid = q then some st
      else mapGet s.rsvps q := by
  by_cases h1 : pid = ""
  · rw [addOrUpdateRsvp_fst_fail s pid st b (Or.inl h1)]
    simp [h1]
  · by_cases h2 : st ∈ validStatuses
    · rw [addOrUpdateRsvp_fst_success s pid st b h1 h2]
      show mapGet (mapSet s.rsvps pid st) q = _
      rw [mapGet_mapSet]
      by_cases hq : pid = q
      · subst hq
        simp [h1, h2]
      · simp [h1, h2, hq]
    · rw [addOrUpdateRsvp_fst_fail s pid st b (Or.inr h2)]
      simp [h2]

/-! ### Confirmed attendees lemmas -/

theorem confirmedStep_foldl (l : List (String × String)) (acc : List String) :
    l.foldl confirmedStep acc = acc ++ (l.filter (fun p => p.2 == "Yes")).map Prod.fst := by
  induction l generalizing acc with
  | nil => simp
  | cons p ps ih =>
    rw [List.foldl_cons, ih]
    by_cases h : p.2 = "Yes"
    · simp [confirmedStep, h]
    · simp [confirmedStep, h]

theorem mapGet_eq_some_iff (m : List (String × String)) (hnodup : (m.map Prod.fst).Nodup)
    (k v : String) : mapGet m k = some v ↔ (k, v) ∈ m := by
  induction m with
  | nil => simp [mapGet]
  | cons p ps ih =>
    obtain ⟨a, b⟩ := p
    rw [List.map_cons, List.nodup_cons] at hnodup
    by_cases hp : a = k
    · subst hp
      simp only [mapGet, beq_self_eq_true, if_true]
      constructor
      · intro hsome
        have hb : b = v := by injection hsome
        subst hb
        exact List.mem_cons_self _ _
      · intro hmem
        rcases List.mem_cons.mp hmem with heq | hmem2
        · injection heq.symm with _ hb
          rw [hb]
        · exfalso
          exact hnodup.1 (List.mem_map.mpr ⟨(a, v), hmem2, rfl⟩)
    · have hcond : ¬ ((a == k) = true) := by simpa using hp
      simp only [mapGet]
      rw [if_neg hcond]
      rw [ih hnodup.2]
      constructor
      · exact fun hm => List.mem_cons_of_mem _ hm
      · intro hmem
        rcases List.mem_cons.mp hmem with heq | hmem2
        · exfalso
          injection heq with ha _
          exact hp ha.symm
        · exact hmem2

/-! ### Trace lemmas -/

theorem mapGet_runUpserts (ops : List (String × String)) (s : RsvpService) (pid : String) :
    mapGet (runUpserts s ops).rsvps pid =
      match specLastSuccessfulUpsert ops pid with
      | some v => some v
      | none => mapGet s.rsvps pid := by
  induction ops generalizing s with
  | nil => simp [runUpserts, specLastSuccessfulUpsert]
  | cons op ops ih =>
    rw [show runUpserts s (op :: ops) =
        runUpserts (addOrUpdateRsvp s op.1 op.2 false).1 ops from rfl]
    rw [ih]
    cases hspec : specLastSuccessfulUpsert ops pid with
    | some v => simp [specLastSuccessfulUpsert, hspec]
    | none =>
      simp only [specLastSuccessfulUpsert, hspec]
      rw [mapGet_addOrUpdateRsvp]
      by_cases hq : op.1 = pid
      · by_cases hv : op.2 ∈ validStatuses
        · by_cases he : op.1 = ""
          · have hpe : pid = "" := hq.symm.trans he
            simp [hq, hv, he, hpe]
          · have hpne : ¬ pid = "" := fun h => he (hq.trans h)
            simp [hq, hv, he, hpne]
        · simp [hq, hv]
      · simp [hq]

theorem constructFold_state (entries : List RsvpEntry) (acc : RsvpService × List LogEvent) :
    (entries.foldl constructStep acc).1 =
      runUpserts acc.1 (entries.map fun e => (e.playerId, e.status)) := by
  induction entries generalizing acc with
  | nil => rfl
  | cons e es ih =>
    rw [List.foldl_cons, ih, List.map_cons]
    rw [show runUpserts acc.1 ((e.playerId, e.status) :: es.map fun e => (e.playerId, e.status)) =
        runUpserts (addOrUpdateRsvp acc.1 e.playerId e.status false).1
          (es.map fun e => (e.playerId, e.status)) from rfl]
    congr 1
    by_cases h1 : e.playerId = ""
    · rw [addOrUpdateRsvp_fst_fail _ _ _ _ (Or.inl h1)]
      simp [constructStep, h1]
    · by_cases h2 : e.status = ""
      · have hinv : e.status ∉ validStatuses := by rw [h2]; decide
        rw [addOrUpdateRsvp_fst_fail _ _ _ _ (Or.inr hinv)]
        simp [constructStep, h1, h2]
      · simp only [constructStep, h1, h2]
        have hcond : ¬ ((e.playerId == "" || e.status == "") = true) := by simp [h1, h2]
        rw [if_neg hcond]
        exact addOrUpdateRsvp_fst_flag acc.1 e.playerId e.status true false

/-- C3: constructing with a candidate sequence yields the same state as
constructing empty and upserting each candidate in sequence order (last
write wins, invalid candidates skipped), and the concrete load
[{p1,Yes},{p2,No},{p1,Maybe}] yields counts {total:2, confirmed:0,
declined:1, maybe:1} with lookupStatus(p1) = Maybe. -/
theorem constructor_refines_upserts :
    (∀ entries : List RsvpEntry,
      (constructService entries).1 =
        runUpserts emptyService (entries.map fun e => (e.playerId, e.status))) ∧
    (getCounts (constructService [⟨"p1", "Yes"⟩, ⟨"p2", "No"⟩, ⟨"p1", "Maybe"⟩]).1).2.1 =
      ⟨2, 0, 1, 1⟩ ∧
    (getPlayerStatus (constructService [⟨"p1", "Yes"⟩, ⟨"p2", "No"⟩, ⟨"p1", "Maybe"⟩]).1
      "p1").2.1 = some "Maybe" := by
  refine ⟨fun entries => ?_, by decide, by decide⟩
  exact constructFold_state entries _

/-- C5: for every reachable registry state, getConfirmedAttendees returns a
duplicate-free list containing exactly the player ids whose stored status
is Yes. -/
theorem getConfirmedAttendees_correct (s : RsvpService) (h : Reachable s) :
    ((getConfirmedAttendees s).2.1).Nodup ∧
    (∀ pid, pid ∈ (getConfirmedAttendees s).2.1 ↔ mapGet s.rsvps pid = some "Yes") := by
  have hw := reachable_wf s h
  have hr : (getConfirmedAttendees s).2.1 =
      (s.rsvps.filter (fun p => p.2 == "Yes")).map Prod.fst := by
    simp [getConfirmedAttendees, confirmedStep_foldl]
  rw [hr]
  constructor
  · have hsub : List.Sublist ((s.rsvps.filter (fun p => p.2 == "Yes")).map Prod.fst)
        (s.rsvps.map Prod.fst) := (List.filter_sublist _).map _
    exact List.Nodup.sublist hsub hw.2
  · intro pid
    rw [mapGet_eq_some_iff s.rsvps hw.2 pid "Yes"]
    constructor
    · intro hmem
      rcases List.mem_map.mp hmem with ⟨p, hp, rfl⟩
      have hf := List.mem_filter.mp hp
      have h2 : p.2 = "Yes" := by simpa using hf.2
      rw [← h2]
      exact hf.1
    · intro hmem
      exact List.mem_map.mpr ⟨(pid, "Yes"), List.mem_filter.mpr ⟨hmem, by simp⟩, rfl⟩

/-- Witness for C5 at a concrete reachable state with one confirmed player. -/
theorem getConfirmedAttendees_correct_witness :
    ((getConfirmedAttendees (constructService [⟨"p1", "Yes"⟩, ⟨"p2", "No"⟩]).1).2.1).Nodup ∧
    (∀ pid, pid ∈ (getConfirmedAttendees (constructService [⟨"p1", "Yes"⟩, ⟨"p2", "No"⟩]).1).2.1 ↔
      mapGet (constructService [⟨"p1", "Yes"⟩, ⟨"p2", "No"⟩]).1.rsvps pid = some "Yes") :=
  getConfirmedAttendees_correct _ (Reachable.construct [⟨"p1", "Yes"⟩, ⟨"p2", "No"⟩])

/-- C6: for every upsert sequence run from the empty registry and every
playerId, getPlayerStatus returns the status of the most recent successful
upsert for that id (or none if there was none), with no logging and no
state change, and totally (no failure path). -/
theorem getPlayerStatus_correct (ops : List (String × String)) (pid : String) :
    getPlayerStatus (runUpserts emptyService ops) pid =
      (runUpserts emptyService ops, specLastSuccessfulUpsert ops pid,
        ([] : List LogEvent)) := by
  have h := mapGet_runUpserts ops emptyService pid
  cases hspec : specLastSuccessfulUpsert ops pid with
  | some v =>
    rw [hspec] at h
    simp only [getPlayerStatus]
    simp at h
    rw [h]
  | none =>
    rw [hspec] at h
    simp only [getPlayerStatus]
    have h2 : mapGet (runUpserts emptyService ops).rsvps pid = none := h
    rw [h2]

/-- C9: successful upserts for distinct playerIds commute on the mapping
viewed as a key-to-status function. -/
theorem upserts_commute (s : RsvpService) (a b s1 s2 : String)
    (hab : a ≠ b) (ha : a ≠ "") (hb : b ≠ "")
    (h1 : s1 ∈ validStatuses) (h2 : s2 ∈ validStatuses) (q : String) :
    mapGet ((addOrUpdateRsvp (addOrUpdateRsvp s a s1 false).1 b s2 false).1).rsvps q =
      mapGet ((addOrUpdateRsvp (addOrUpdateRsvp s b s2 false).1 a s1 false).1).rsvps q := by
  rw [mapGet_addOrUpdateRsvp, mapGet_addOrUpdateRsvp, mapGet_addOrUpdateRsvp,
    mapGet_addOrUpdateRsvp]
  by_cases hqa : a = q
  · subst hqa
    have hqb : ¬ (b = a) := fun h => hab h.symm
    simp [ha, hb, h1, h2, hqb]
  · by_cases hqb : b = q
    · subst hqb
      simp [ha, hb, h1, h2, hqa]
    · simp [ha, hb, h1, h2, hqa, hqb]

/-- Witness for C9: upserting x:Yes then y:No agrees with the reverse order
on lookups of x. -/
theorem upserts_commute_witness :
    mapGet ((addOrUpdateRsvp (addOrUpdateRsvp emptyService "x" "Yes" false).1
        "y" "No" false).1).rsvps "x" =
      mapGet ((addOrUpdateRsvp (addOrUpdateRsvp emptyService "y" "No" false).1
        "x" "Yes" false).1).rsvps "x" :=
  upserts_commute emptyService "x" "y" "Yes" "No" (by decide) (by decide) (by decide)
    (by decide) (by decide) "x"

/-! ### Sorting lemmas -/

theorem mem_insertSortedByKey (x : EventAttendance) (l : List EventAttendance)
    (z : EventAttendance) : z ∈ insertSortedByKey x l ↔ z = x ∨ z ∈ l := by
  induction l with
  | nil => simp [insertSortedByKey]
  | cons y ys ih =>
    by_cases h : sortKey y < sortKey x
    · simp only [insertSortedByKey, h, if_true, List.mem_cons, ih]
      tauto
    · simp only [insertSortedByKey, h, if_false, List.mem_cons]

theorem perm_insertSortedByKey (x : EventAttendance) (l : List EventAttendance) :
    (insertSortedByKey x l).Perm (x :: l) := by
  induction l with
  | nil => simp [insertSortedByKey]
  | cons y ys ih =>
    by_cases h : sortKey y < sortKey x
    · simp only [insertSortedByKey, h, if_true]
      exact (ih.cons y).trans (List.Perm.swap x y ys)
    · simp [insertSortedByKey, h]

theorem perm_sortByKey (l : List EventAttendance) : (sortByKey l).Perm l := by
  induction l with
  | nil => simp [sortByKey]
  | cons x xs ih =>
    rw [show sortByKey (x :: xs) = insertSortedByKey x (sortByKey xs) from rfl]
    exact (perm_insertSortedByKey x (sortByKey xs)).trans (ih.cons x)

theorem pairwise_insertSortedByKey (x : EventAttendance) (l : List EventAttendance)
    (h : l.Pairwise (fun a b => sortKey a ≤ sortKey b)) :
    (insertSortedByKey x l).Pairwise (fun a b => sortKey a ≤ sortKey b) := by
  induction l with
  | nil => simp [insertSortedByKey]
  | cons y ys ih =>
    rw [List.pairwise_cons] at h
    by_cases hc : sortKey y < sortKey x
    · simp only [insertSortedByKey, hc, if_true]
      rw [List.pairwise_cons]
      refine ⟨?_, ih h.2⟩
      intro z hz
      rcases (mem_insertSortedByKey x ys z).mp hz with rfl | hz2
      · exact le_of_lt hc
      · exact h.1 z hz2
    · simp only [insertSortedByKey, hc, if_false]
      rw [List.pairwise_cons]
      refine ⟨?_, List.pairwise_cons.mpr h⟩
      intro z hz
      rcases List.mem_cons.mp hz with rfl | hz2
      · exact le_of_not_lt hc
      · exact le_trans (le_of_not_lt hc) (h.1 z hz2)

theorem pairwise_sortByKey (l : List EventAttendance) :
    (sortByKey l).Pairwise (fun a b => sortKey a ≤ sortKey b) := by
  induction l with
  | nil => simp [sortByKey]
  | cons x xs ih => exact pairwise_insertSortedByKey x (sortByKey xs) ih

/-- C8: the report lists exactly the attendance entries whose event_id
parses numerically (one row per such event), in ascending numeric order,
and the rendered document is the header (with the grand total), the row for
each listed event in order (escaped name, comma-joined escaped attendee
list, attendee count), and the footer; events with a non-parsable event_id
are absent. -/
theorem report_rows_sorted_and_filtered (playersData : List Player)
    (eventsData : List Event) (rsvpData : List Rsvp) :
    (reportDataOf playersData eventsData rsvpData).Perm
      (((processAllRsvps (buildPlayerMap playersData)
          (buildEventAttendanceMap eventsData).1 rsvpData).1.map Prod.snd).filter
        (fun ea => (parseInt ea.event_id).isSome)) ∧
    (reportDataOf playersData eventsData rsvpData).Pairwise
      (fun a b => sortKey a ≤ sortKey b) ∧
    (∀ ea ∈ reportDataOf playersData eventsData rsvpData, (parseInt ea.event_id).isSome) ∧
    (generateHtmlReportString playersData eventsData rsvpData).1 =
      htmlHeader ((reportDataOf playersData eventsData rsvpData).foldl
          (fun sum ea => sum + ea.attendee_names.length) 0) ++
        String.join (((reportDataOf playersData eventsData rsvpData).enum).map
          (fun p => rowFor p.1 p.2)) ++ htmlFooter := by
  have hperm := perm_sortByKey
    (((processAllRsvps (buildPlayerMap playersData)
        (buildEventAttendanceMap eventsData).1 rsvpData).1.map Prod.snd).filter
      (fun ea => (parseInt ea.event_id).isSome))
  refine ⟨hperm, ?_, ?_, rfl⟩
  · exact pairwise_sortByKey _
  · intro ea hmem
    have hmem2 := hperm.mem_iff.mp hmem
    have := List.mem_filter.mp hmem2
    simpa using this.2

/-! ### Unresolved references in the report pipeline -/

/-- C7 counterexample: a Yes-RSVP whose event_id does not resolve is only
warned about and dropped; the attendance map is left unchanged and the
report contains no placeholder for it, refuting the claim that the
unknown-event case is represented in the report with a placeholder. -/
theorem report_unknown_event_counterexample :
    (generateHtmlReportString [] [exEventA] [exRsvpUnknownEvent]).2 =
      [unknownEventWarning "2"] ∧
    (processAllRsvps (buildPlayerMap []) (buildEventAttendanceMap [exEventA]).1
      [exRsvpUnknownEvent]).1 = [("1", ⟨"1", "Event A", []⟩)] ∧
    reportDataOf [] [exEventA] [exRsvpUnknownEvent] = [⟨"1", "Event A", []⟩] := by
  refine ⟨?_, ?_, ?_⟩ <;> decide

/-- C7 amended: a Yes-RSVP with both ids present whose event resolves but
whose player does not gets a warning and the placeholder attendee name; a
Yes-RSVP whose event does not resolve gets a warning and is skipped,
leaving the attendance map unchanged (the run continues either way). -/
theorem report_unresolved_refs (playerMap : List (String × String))
    (m : List (String × EventAttendance)) (w : List String) (rid : Option String)
    (eid pid : String) (ea : EventAttendance) :
    (mapGet m eid = none →
      processRsvp playerMap (m, w) ⟨rid, some eid, some pid, some "Yes"⟩ =
        (m, w ++ [unknownEventWarning eid])) ∧
    (mapGet m eid = some ea → mapGet playerMap pid = none →
      processRsvp playerMap (m, w) ⟨rid, some eid, some pid, some "Yes"⟩ =
        (mapSet m eid
          { ea with attendee_names := ea.attendee_names ++ [unknownPlayerPlaceholder pid] },
         w ++ [unknownPlayerWarning pid eid])) := by
  constructor
  · intro h
    simp [processRsvp, h]
  · intro h1 h2
    simp [processRsvp, h1, h2]

/-- Witness for C7-amended at concrete inputs: an unknown event id 2 over a
map holding only event 1, and an unknown player p9 at the known event 1. -/
theorem report_unresolved_refs_witness :
    (processRsvp [] ([("1", ⟨"1", "Event A", []⟩)], [])
        ⟨some "r1", some "2", some "p9", some "Yes"⟩ =
      ([("1", ⟨"1", "Event A", []⟩)], [] ++ [unknownEventWarning "2"])) ∧
    (processRsvp [] ([("1", ⟨"1", "Event A", []⟩)], [])
        ⟨some "r1", some "1", some "p9", some "Yes"⟩ =
      (mapSet [("1", ⟨"1", "Event A", []⟩)] "1"
        ⟨"1", "Event A", [] ++ [unknownPlayerPlaceholder "p9"]⟩,
       [] ++ [unknownPlayerWarning "p9" "1"])) :=
  ⟨(report_unresolved_refs [] [("1", ⟨"1", "Event A", []⟩)] [] (some "r1") "2" "p9"
      ⟨"1", "Event A", []⟩).1 (by decide),
   (report_unresolved_refs [] [("1", ⟨"1", "Event A", []⟩)] [] (some "r1") "1" "p9"
      ⟨"1", "Event A", []⟩).2 (by decide) (by decide)⟩
